import Mathlib

/-!
Verification development for the Cosmos transaction-overview engine
(`src/rust/apps/cosmos/src/transaction/overview.rs`).

The embedding translates the Rust source into Lean: `serde_json::Value`
becomes an inductive `Value`; the message structs, the per-kind
`TryFrom` builders and `CosmosTxOverview::from_value` are translated
function by function.  Collaborators whose code is outside the provided
source tree (`detect_msg_type`, `format_amount`, `format_coin`,
`get_chain_id_by_address`, `get_network_by_chain_id`, `is_cjk`, the
serde decoders and the base64/UTF-8 decoders) are modelled from the
specification and standard library semantics; each such definition is
marked in its doc comment.
-/

namespace Cosmos

/-- Shallow embedding of `serde_json::Value`. -/
inductive Value where
  | null
  | bool (b : Bool)
  | num (n : Int)
  | str (s : String)
  | arr (elems : List Value)
  | obj (fields : List (String × Value))
deriving Repr

/-- `v["k"]` on a `serde_json::Value`: field lookup on an object,
`Null` when the key is absent or the value is not an object. -/
def Value.getField : Value → String → Value
  | .obj fields, k => ((fields.find? (fun f => f.1 = k)).map (fun f => f.2)).getD .null
  | _, _ => .null

/-- `Value::as_str`: `some` exactly on JSON strings. -/
def Value.asStr : Value → Option String
  | .str s => some s
  | _ => none

/-- `Value::as_array`: `some` exactly on JSON arrays. -/
def Value.asArray : Value → Option (List Value)
  | .arr xs => some xs
  | _ => none

/-- The error type of the crate, restricted to the variants this module
can produce: `ParseTxError` is raised by `from_value` itself, and serde
decode failures surface as a distinct variant (modelled from the spec:
the real `CosmosError` wraps `serde_json::Error` in its own variant,
separate from `ParseTxError`). -/
inductive CosmosError where
  | ParseTxError (msg : String)
  | SerdeError (msg : String)
deriving Repr, DecidableEq

/-- Amino/proto coin: `{denom, amount}`, both JSON strings. -/
structure Coin where
  denom : String
  amount : String
deriving Repr, DecidableEq

/-- Modelled from the spec: serde decode of a required `String` field —
fails when the field is absent or not a JSON string. -/
def decodeStringField (v : Value) (k : String) : Except CosmosError String :=
  match (v.getField k).asStr with
  | some s => .ok s
  | none => .error (.SerdeError k)

/-- Modelled from the spec: serde decode of a `Coin` object. -/
def decodeCoin (v : Value) : Except CosmosError Coin := do
  let d ← decodeStringField v "denom"
  let a ← decodeStringField v "amount"
  .ok { denom := d, amount := a }

/-- Modelled from the spec: serde decode of each element of a coin array. -/
def decodeCoins : List Value → Except CosmosError (List Coin)
  | [] => .ok []
  | v :: rest => do
    let c ← decodeCoin v
    let cs ← decodeCoins rest
    .ok (c :: cs)

/-- Modelled from the spec: serde decode of a required `Vec<Coin>` field. -/
def decodeCoinListField (v : Value) (k : String) : Except CosmosError (List Coin) :=
  match (v.getField k).asArray with
  | some xs => decodeCoins xs
  | none => .error (.SerdeError k)

/-- Modelled from the spec: serde decode of an `Option<Coin>` field —
an absent or `null` field is `none`, anything else must be a coin. -/
def decodeOptCoinField (v : Value) (k : String) : Except CosmosError (Option Coin) :=
  match v.getField k with
  | .null => .ok none
  | w => (decodeCoin w).map some

/-- Modelled from the spec: serde decode of a required `u64` field. -/
def decodeNatField (v : Value) (k : String) : Except CosmosError Nat :=
  match v.getField k with
  | .num n => if 0 ≤ n then .ok n.toNat else .error (.SerdeError k)
  | _ => .error (.SerdeError k)

/-- Modelled from the spec: serde decode of a required `i32` field. -/
def decodeIntField (v : Value) (k : String) : Except CosmosError Int :=
  match v.getField k with
  | .num n => .ok n
  | _ => .error (.SerdeError k)

/-- `MsgSend` (proto wrapper; field set modelled from the spec and the
fields the overview builder reads). -/
structure MsgSend where
  from_address : String
  to_address : String
  amount : List Coin
deriving Repr, DecidableEq

/-- Modelled from the spec: `from_value::<MsgSend>`. -/
def MsgSend.from_value (v : Value) : Except CosmosError MsgSend := do
  let f ← decodeStringField v "from_address"
  let t ← decodeStringField v "to_address"
  let a ← decodeCoinListField v "amount"
  .ok { from_address := f, to_address := t, amount := a }

/-- `MsgDelegate` with its optional amount. -/
structure MsgDelegate where
  delegator_address : String
  validator_address : String
  amount : Option Coin
deriving Repr, DecidableEq

/-- Modelled from the spec: `from_value::<MsgDelegate>`. -/
def MsgDelegate.from_value (v : Value) : Except CosmosError MsgDelegate := do
  let d ← decodeStringField v "delegator_address"
  let va ← decodeStringField v "validator_address"
  let a ← decodeOptCoinField v "amount"
  .ok { delegator_address := d, validator_address := va, amount := a }

/-- `MsgUndelegate` with its optional amount. -/
structure MsgUndelegate where
  delegator_address : String
  validator_address : String
  amount : Option Coin
deriving Repr, DecidableEq

/-- Modelled from the spec: `from_value::<MsgUndelegate>`. -/
def MsgUndelegate.from_value (v : Value) : Except CosmosError MsgUndelegate := do
  let d ← decodeStringField v "delegator_address"
  let va ← decodeStringField v "validator_address"
  let a ← decodeOptCoinField v "amount"
  .ok { delegator_address := d, validator_address := va, amount := a }

/-- `MsgBeginRedelegate`: source validator, destination validator,
delegator, optional amount. -/
structure MsgBeginRedelegate where
  delegator_address : String
  validator_src_address : String
  validator_dst_address : String
  amount : Option Coin
deriving Repr, DecidableEq

/-- Modelled from the spec: `from_value::<MsgBeginRedelegate>`. -/
def MsgBeginRedelegate.from_value (v : Value) : Except CosmosError MsgBeginRedelegate := do
  let d ← decodeStringField v "delegator_address"
  let vs ← decodeStringField v "validator_src_address"
  let vd ← decodeStringField v "validator_dst_address"
  let a ← decodeOptCoinField v "amount"
  .ok { delegator_address := d, validator_src_address := vs,
        validator_dst_address := vd, amount := a }

/-- `MsgWithdrawDelegatorReward`: no amount field exists on the source
message. -/
structure MsgWithdrawDelegatorReward where
  delegator_address : String
  validator_address : String
deriving Repr, DecidableEq

/-- Modelled from the spec: `from_value::<MsgWithdrawDelegatorReward>`. -/
def MsgWithdrawDelegatorReward.from_value (v : Value) :
    Except CosmosError MsgWithdrawDelegatorReward := do
  let d ← decodeStringField v "delegator_address"
  let va ← decodeStringField v "validator_address"
  .ok { delegator_address := d, validator_address := va }

/-- `MsgTransfer` (IBC): sender, receiver, optional token. -/
structure MsgTransfer where
  sender : String
  receiver : String
  token : Option Coin
deriving Repr, DecidableEq

/-- Modelled from the spec: `from_value::<MsgTransfer>`. -/
def MsgTransfer.from_value (v : Value) : Except CosmosError MsgTransfer := do
  let s ← decodeStringField v "sender"
  let r ← decodeStringField v "receiver"
  let tk ← decodeOptCoinField v "token"
  .ok { sender := s, receiver := r, token := tk }

/-- `MsgVote`: voter, proposal id, vote option code. -/
structure MsgVote where
  voter : String
  proposal_id : Nat
  option : Int
deriving Repr, DecidableEq

/-- Modelled from the spec: `from_value::<MsgVote>`. -/
def MsgVote.from_value (v : Value) : Except CosmosError MsgVote := do
  let vo ← decodeStringField v "voter"
  let p ← decodeNatField v "proposal_id"
  let o ← decodeIntField v "option"
  .ok { voter := vo, proposal_id := p, option := o }

/-- `MsgSignData` (declared in the overview module itself):
`{ data, signer }`, both strings. -/
structure MsgSignData where
  data : String
  signer : String
deriving Repr, DecidableEq

/-- Modelled from the spec: `from_value::<MsgSignData>` (derived
`Deserialize` on the struct declared in the overview module). -/
def MsgSignData.from_value (v : Value) : Except CosmosError MsgSignData := do
  let d ← decodeStringField v "data"
  let s ← decodeStringField v "signer"
  .ok { data := d, signer := s }

/-- Modelled from the external base64 crate: value of one character of
the standard alphabet. -/
def b64Val (c : Char) : Option Nat :=
  if 'A' ≤ c ∧ c ≤ 'Z' then some (c.toNat - 65)
  else if 'a' ≤ c ∧ c ≤ 'z' then some (c.toNat - 97 + 26)
  else if '0' ≤ c ∧ c ≤ '9' then some (c.toNat - 48 + 52)
  else if c = '+' then some 62
  else if c = '/' then some 63
  else none

/-- Modelled from the external base64 crate: decode a padded standard
base64 character stream, four characters at a time. -/
def b64DecodeChars : List Char → Option (List Nat)
  | [] => some []
  | c1 :: c2 :: c3 :: c4 :: rest => do
    let v1 ← b64Val c1
    let v2 ← b64Val c2
    if c3 = '=' then
      if c4 = '=' ∧ rest = [] then some [v1 * 4 + v2 / 16] else none
    else do
      let v3 ← b64Val c3
      if c4 = '=' then
        if rest = [] then some [v1 * 4 + v2 / 16, v2 % 16 * 16 + v3 / 4] else none
      else do
        let v4 ← b64Val c4
        let tail ← b64DecodeChars rest
        some ([v1 * 4 + v2 / 16, v2 % 16 * 16 + v3 / 4, v3 % 4 * 64 + v4] ++ tail)
  | _ => none

/-- Modelled from the external base64 crate: `base64::decode`;
`none` plays the role of `Err(DecodeError)`. -/
def base64_decode (s : String) : Option (List Nat) :=
  b64DecodeChars s.toList

/-- One step of strict UTF-8 decoding: consume one scalar value from the
byte stream, rejecting overlong forms, surrogates and out-of-range
codepoints, exactly as `String::from_utf8` does. -/
def utf8Step : List Nat → Option (Nat × List Nat)
  | [] => none
  | b :: rest =>
    if b < 128 then some (b, rest)
    else if 194 ≤ b ∧ b ≤ 223 then
      match rest with
      | b2 :: rest2 =>
        if 128 ≤ b2 ∧ b2 < 192 then some ((b - 192) * 64 + (b2 - 128), rest2) else none
      | [] => none
    else if 224 ≤ b ∧ b ≤ 239 then
      match rest with
      | b2 :: b3 :: rest2 =>
        let lo2 := if b = 224 then 160 else 128
        let hi2 := if b = 237 then 160 else 192
        if (lo2 ≤ b2 ∧ b2 < hi2) ∧ (128 ≤ b3 ∧ b3 < 192) then
          some ((b - 224) * 4096 + (b2 - 128) * 64 + (b3 - 128), rest2)
        else none
      | _ => none
    else if 240 ≤ b ∧ b ≤ 244 then
      match rest with
      | b2 :: b3 :: b4 :: rest2 =>
        let lo2 := if b = 240 then 144 else 128
        let hi2 := if b = 244 then 144 else 192
        if (lo2 ≤ b2 ∧ b2 < hi2) ∧ (128 ≤ b3 ∧ b3 < 192) ∧ (128 ≤ b4 ∧ b4 < 192) then
          some ((b - 240) * 262144 + (b2 - 128) * 4096 + (b3 - 128) * 64 + (b4 - 128), rest2)
        else none
      | _ => none
    else none

/-- Fuel-indexed driver for UTF-8 decoding; fuel bounds the number of
decoded characters, so the list length is always enough. -/
def utf8Go : Nat → List Nat → Option (List Char)
  | _, [] => some []
  | 0, _ :: _ => none
  | fuel + 1, l@(_ :: _) => do
    let (cp, rest) ← utf8Step l
    let cs ← utf8Go fuel rest
    some (Char.ofNat cp :: cs)

/-- `String::from_utf8`: `some` exactly on valid UTF-8 byte sequences. -/
def string_from_utf8 (bytes : List Nat) : Option String :=
  (utf8Go bytes.length bytes).map String.mk

/-- Modelled from the spec: the dedicated CJK-script detector
(`app_utils::is_cjk`) — true when any character falls in the main CJK
ideograph, kana or hangul blocks. -/
def is_cjk (s : String) : Bool :=
  s.toList.any fun c =>
    decide ((0x3040 ≤ c.toNat ∧ c.toNat ≤ 0x30FF) ∨
      (0x3400 ≤ c.toNat ∧ c.toNat ≤ 0x4DBF) ∨
      (0x4E00 ≤ c.toNat ∧ c.toNat ≤ 0x9FFF) ∨
      (0xAC00 ≤ c.toNat ∧ c.toNat ≤ 0xD7AF))

/-- Modelled from the spec: `get_chain_id_by_address` — a total lookup
from the address's human-readable part to a chain id, with a
best-effort default on no match. -/
def get_chain_id_by_address (address : String) : String :=
  let hrp := ((address.splitOn "1").headD address)
  if hrp = "cosmos" then "cosmoshub-4"
  else if hrp = "osmo" then "osmosis-1"
  else if hrp = "evmos" then "evmos_9001-2"
  else "cosmoshub-4"

/-- Modelled from the spec: `get_network_by_chain_id` — a partial lookup
from chain id to human network name. -/
def get_network_by_chain_id (chainId : String) : Option String :=
  if chainId = "cosmoshub-4" then some "Cosmos Hub"
  else if chainId = "osmosis-1" then some "Osmosis"
  else if chainId = "evmos_9001-2" then some "Evmos"
  else none

/-- Modelled from the spec: `format_amount` renders a coin list into one
display string; the exact joining format is an implementation choice,
kept stable and per-denomination distinguishable. -/
def format_amount (coins : List Coin) : String :=
  String.intercalate ", " (coins.map fun c => c.amount ++ " " ++ c.denom)

/-- Modelled from the spec: `format_coin` renders a single token
amount+denom pair. -/
def format_coin (c : Coin) : Option String :=
  some (c.amount ++ " " ++ c.denom)

/-- `OverviewSend` display record. -/
structure OverviewSend where
  method : String
  value : String
  «from» : String
  «to» : String
deriving Repr, DecidableEq

/-- `TryFrom<MsgSend> for OverviewSend`. -/
def OverviewSend.try_from (value : MsgSend) : Except CosmosError OverviewSend :=
  .ok { method := "Send", value := format_amount value.amount,
        «from» := value.from_address, «to» := value.to_address }

/-- `OverviewDelegate` display record; `value` carries
`skip_serializing_if = "String::is_empty"` (see `serialize`). -/
structure OverviewDelegate where
  method : String
  value : String
  «from» : String
  «to» : String
deriving Repr, DecidableEq

/-- `TryFrom<MsgDelegate> for OverviewDelegate`. -/
def OverviewDelegate.try_from (data : MsgDelegate) : Except CosmosError OverviewDelegate :=
  let value := (data.amount.map fun coin => format_amount [coin]).getD ""
  .ok { method := "Delegate", value := value,
        «from» := data.delegator_address, «to» := data.validator_address }

/-- Serde serialization of `OverviewDelegate`: renamed keys in field
order, with `Value` skipped when the string is empty. -/
def OverviewDelegate.serialize (o : OverviewDelegate) : List (String × String) :=
  [("Method", o.method)] ++ (if o.value = "" then [] else [("Value", o.value)])
    ++ [("From", o.«from»), ("To", o.«to»)]

/-- `OverviewUndelegate` display record; `value` carries
`skip_serializing_if = "String::is_empty"`. -/
structure OverviewUndelegate where
  method : String
  value : String
  «to» : String
  validator : String
deriving Repr, DecidableEq

/-- `TryFrom<MsgUndelegate> for OverviewUndelegate`. -/
def OverviewUndelegate.try_from (data : MsgUndelegate) : Except CosmosError OverviewUndelegate :=
  let value := (data.amount.map fun coin => format_amount [coin]).getD ""
  .ok { method := "Undelegate", value := value,
        «to» := data.delegator_address, validator := data.validator_address }

/-- Serde serialization of `OverviewUndelegate`. -/
def OverviewUndelegate.serialize (o : OverviewUndelegate) : List (String × String) :=
  [("Method", o.method)] ++ (if o.value = "" then [] else [("Value", o.value)])
    ++ [("To", o.«to»), ("Validator", o.validator)]

/-- `OverviewRedelegate` display record; `value` carries
`skip_serializing_if = "String::is_empty"`. -/
structure OverviewRedelegate where
  method : String
  value : String
  «to» : String
  new_validator : String
deriving Repr, DecidableEq

/-- `TryFrom<MsgBeginRedelegate> for OverviewRedelegate`. -/
def OverviewRedelegate.try_from (data : MsgBeginRedelegate) :
    Except CosmosError OverviewRedelegate :=
  let value := (data.amount.map fun coin => format_amount [coin]).getD ""
  .ok { method := "Re-delegate", value := value,
        «to» := data.delegator_address, new_validator := data.validator_dst_address }

/-- Serde serialization of `OverviewRedelegate`. -/
def OverviewRedelegate.serialize (o : OverviewRedelegate) : List (String × String) :=
  [("Method", o.method)] ++ (if o.value = "" then [] else [("Value", o.value)])
    ++ [("To", o.«to»), ("New Validator", o.new_validator)]

/-- `OverviewWithdrawReward` display record: no value field exists. -/
structure OverviewWithdrawReward where
  method : String
  «to» : String
  validator : String
deriving Repr, DecidableEq

/-- `TryFrom<MsgWithdrawDelegatorReward> for OverviewWithdrawReward`. -/
def OverviewWithdrawReward.try_from (data : MsgWithdrawDelegatorReward) :
    Except CosmosError OverviewWithdrawReward :=
  .ok { method := "Withdraw Reward", «to» := data.delegator_address,
        validator := data.validator_address }

/-- `OverviewTransfer` display record; `value` carries
`skip_serializing_if = "String::is_empty"`. -/
structure OverviewTransfer where
  method : String
  value : String
  «from» : String
  «to» : String
deriving Repr, DecidableEq

/-- `TryFrom<MsgTransfer> for OverviewTransfer`. -/
def OverviewTransfer.try_from (msg : MsgTransfer) : Except CosmosError OverviewTransfer :=
  let value := (msg.token.bind format_coin).getD ""
  .ok { method := "IBC Transfer", value := value,
        «from» := msg.sender, «to» := msg.receiver }

/-- `OverviewVote` display record. -/
structure OverviewVote where
  method : String
  voter : String
  proposal : String
  voted : String
deriving Repr, DecidableEq

/-- `TryFrom<MsgVote> for OverviewVote`: the vote-option integer goes
through the fixed table, everything else renders empty. -/
def OverviewVote.try_from (msg : MsgVote) : Except CosmosError OverviewVote :=
  let voted :=
    if msg.option = 0 then "UNSPECIFIED"
    else if msg.option = 1 then "YES"
    else if msg.option = 2 then "ABSTAIN"
    else if msg.option = 3 then "NO"
    else if msg.option = 4 then "NO_WITH_VETO"
    else ""
  .ok { method := "Vote", voter := msg.voter,
        proposal := "#" ++ toString msg.proposal_id, voted := voted }

/-- `OverviewMessage` display record for off-chain `MsgSignData`. -/
structure OverviewMessage where
  method : String
  network : String
  signer : String
  message : String
  chain_id : String
deriving Repr, DecidableEq

/-- `TryFrom<MsgSignData> for OverviewMessage`: base64-decode the
payload, interpret as UTF-8, fall back to the raw encoded string on
decode failure, invalid UTF-8 or CJK detection. -/
def OverviewMessage.try_from (msg : MsgSignData) : Except CosmosError OverviewMessage :=
  let message :=
    match base64_decode msg.data with
    | some bytes =>
      match string_from_utf8 bytes with
      | some utf8Message => if is_cjk utf8Message then msg.data else utf8Message
      | none => msg.data
    | none => msg.data
  let chainId := get_chain_id_by_address msg.signer
  .ok { method := "Message",
        network := (get_network_by_chain_id chainId).getD "Cosmos Hub",
        signer := msg.signer, message := message, chain_id := chainId }

/-- The untagged union of per-kind overview records. -/
inductive MsgOverview where
  | Send (o : OverviewSend)
  | Delegate (o : OverviewDelegate)
  | Undelegate (o : OverviewUndelegate)
  | Redelegate (o : OverviewRedelegate)
  | WithdrawReward (o : OverviewWithdrawReward)
  | Transfer (o : OverviewTransfer)
  | Vote (o : OverviewVote)
  | Message (o : OverviewMessage)
deriving Repr, DecidableEq

/-- Text after the last slash of a character list: the accumulator is
reset each time a slash is met. -/
def lastComponent (cs : List Char) : List Char :=
  cs.foldl (fun acc c => if c = '/' then [] else acc ++ [c]) []

/-- Modelled from the spec: `detect_msg_type` normalizes the raw type
tag — an absent or null tag yields a string recognized by no dispatch
arm, and a chain prefix such as `cosmos-sdk/` is stripped so that the
trailing message name is matched. -/
def detect_msg_type : Option String → String
  | none => ""
  | some t => String.mk (lastComponent t.toList)

/-- The nine tag strings the dispatch `match` in
`CosmosTxOverview::from_value` recognizes (eight kinds; the withdraw
kind has two historical spellings). -/
def recognizedKind (s : String) : Bool :=
  s = "MsgSend" || s = "MsgDelegate" || s = "MsgUndelegate" ||
    s = "MsgBeginRedelegate" || s = "MsgWithdrawDelegatorReward" ||
    s = "MsgWithdrawDelegationReward" || s = "MsgTransfer" ||
    s = "MsgVote" || s = "MsgSignData"

/-- One arm of the dispatch `match`: decode the `value` payload for the
detected kind and build its overview record; unrecognized kinds fall
through to the empty arm (`none`). -/
def dispatchMsg (kind : String) (v : Value) : Except CosmosError (Option MsgOverview) :=
  if kind = "MsgSend" then do
    let msg ← MsgSend.from_value v
    let o ← OverviewSend.try_from msg
    .ok (some (.Send o))
  else if kind = "MsgDelegate" then do
    let msg ← MsgDelegate.from_value v
    let o ← OverviewDelegate.try_from msg
    .ok (some (.Delegate o))
  else if kind = "MsgUndelegate" then do
    let msg ← MsgUndelegate.from_value v
    let o ← OverviewUndelegate.try_from msg
    .ok (some (.Undelegate o))
  else if kind = "MsgBeginRedelegate" then do
    let msg ← MsgBeginRedelegate.from_value v
    let o ← OverviewRedelegate.try_from msg
    .ok (some (.Redelegate o))
  else if kind = "MsgWithdrawDelegatorReward" ∨ kind = "MsgWithdrawDelegationReward" then do
    let msg ← MsgWithdrawDelegatorReward.from_value v
    let o ← OverviewWithdrawReward.try_from msg
    .ok (some (.WithdrawReward o))
  else if kind = "MsgTransfer" then do
    let msg ← MsgTransfer.from_value v
    let o ← OverviewTransfer.try_from msg
    .ok (some (.Transfer o))
  else if kind = "MsgVote" then do
    let msg ← MsgVote.from_value v
    let o ← OverviewVote.try_from msg
    .ok (some (.Vote o))
  else if kind = "MsgSignData" then do
    let msg ← MsgSignData.from_value v
    let o ← OverviewMessage.try_from msg
    .ok (some (.Message o))
  else .ok none

/-- The loop body of `CosmosTxOverview::from_value` for one element of
the message array: detect the kind from `each["type"]`, then decode and
build from `each["value"]`. -/
def processMsg (each : Value) : Except CosmosError (Option MsgOverview) :=
  dispatchMsg (detect_msg_type ((each.getField "type").asStr)) (each.getField "value")

/-- The `for` loop of `CosmosTxOverview::from_value`: each element is
processed in order, the first error aborts, and built records are
pushed in iteration order. -/
def from_value_list : List Value → Except CosmosError (List MsgOverview)
  | [] => .ok []
  | each :: rest =>
    match processMsg each with
    | .error err => .error err
    | .ok o =>
      match from_value_list rest with
      | .error err => .error err
      | .ok tail =>
        .ok (match o with
          | some m => m :: tail
          | none => tail)

/-- `CosmosTxOverview::from_value`: reject a non-array payload with
`ParseTxError("empty msg")`, otherwise run the loop. -/
def CosmosTxOverview.from_value (msgs : Value) : Except CosmosError (List MsgOverview) :=
  match msgs.asArray with
  | none => .error (.ParseTxError "empty msg")
  | some msg_arr => from_value_list msg_arr

/-- `true` exactly on the serde-decode error variant. -/
def CosmosError.isSerde : CosmosError → Bool
  | .SerdeError _ => true
  | .ParseTxError _ => false

/-- Concrete well-formed `MsgSend` element, for witnesses. -/
def demoSendVal : Value :=
  .obj [("type", .str "cosmos-sdk/MsgSend"),
    ("value", .obj [("from_address", .str "cosmos1a"), ("to_address", .str "cosmos1b"),
      ("amount", .arr [.obj [("denom", .str "uatom"), ("amount", .str "1000000")]])])]

/-- Concrete well-formed `MsgVote` element, for witnesses. -/
def demoVoteVal : Value :=
  .obj [("type", .str "cosmos-sdk/MsgVote"),
    ("value", .obj [("voter", .str "cosmos1v"), ("proposal_id", .num 123), ("option", .num 2)])]

/-- Concrete element with an unrecognized tag, for witnesses. -/
def demoUnknownVal : Value :=
  .obj [("type", .str "cosmos-sdk/MsgSubmitProposal"), ("value", .obj [])]

/-- Concrete `MsgSend` element whose payload is missing the required
`from_address` field, for witnesses. -/
def demoBadSendVal : Value :=
  .obj [("type", .str "cosmos-sdk/MsgSend"), ("value", .obj [("to_address", .str "cosmos1b")])]

/-- The per-element outcome function used by the order-preservation
witness: the record `processMsg` produces, `none` on skip. -/
def demoG (x : Value) : Option MsgOverview :=
  match processMsg x with
  | .ok o => o
  | .error _ => none

/-- Splitting a failing `Except` bind into its two causes. -/
theorem bindError {α β : Type} {x : Except CosmosError α} {f : α → Except CosmosError β}
    {e : CosmosError} (h : (x >>= f) = .error e) :
    x = .error e ∨ ∃ a, x = .ok a ∧ f a = .error e := by
  cases x with
  | error err =>
    left
    have hred : (Except.error err : Except CosmosError α) >>= f =
        (Except.error err : Except CosmosError β) := rfl
    rw [hred] at h
    injection h with h2
    rw [h2]
  | ok a =>
    right
    refine ⟨a, rfl, ?_⟩
    have hred : (Except.ok a : Except CosmosError α) >>= f = f a := rfl
    rw [hred] at h
    exact h

/-- `decodeStringField` only fails with a serde error. -/
theorem decodeStringField_error {v : Value} {k : String} {e : CosmosError}
    (h : decodeStringField v k = .error e) : e.isSerde = true := by
  unfold decodeStringField at h
  split at h
  · cases h
  · cases h; rfl

/-- `decodeCoin` only fails with a serde error. -/
theorem decodeCoin_error {v : Value} {e : CosmosError}
    (h : decodeCoin v = .error e) : e.isSerde = true := by
  unfold decodeCoin at h
  rcases bindError h with h1 | ⟨a, _, h2⟩
  · exact decodeStringField_error h1
  · rcases bindError h2 with h3 | ⟨b, _, h4⟩
    · exact decodeStringField_error h3
    · cases h4

/-- `decodeCoins` only fails with a serde error. -/
theorem decodeCoins_error {vs : List Value} {e : CosmosError}
    (h : decodeCoins vs = .error e) : e.isSerde = true := by
  induction vs with
  | nil => cases h
  | cons a t ih =>
    unfold decodeCoins at h
    rcases bindError h with h1 | ⟨c, _, h2⟩
    · exact decodeCoin_error h1
    · rcases bindError h2 with h3 | ⟨cs, _, h4⟩
      · exact ih h3
      · cases h4

/-- `decodeCoinListField` only fails with a serde error. -/
theorem decodeCoinListField_error {v : Value} {k : String} {e : CosmosError}
    (h : decodeCoinListField v k = .error e) : e.isSerde = true := by
  unfold decodeCoinListField at h
  split at h
  · exact decodeCoins_error h
  · cases h; rfl

/-- `decodeOptCoinField` only fails with a serde error. -/
theorem decodeOptCoinField_error {v : Value} {k : String} {e : CosmosError}
    (h : decodeOptCoinField v k = .error e) : e.isSerde = true := by
  unfold decodeOptCoinField at h
  split at h
  · cases h
  · cases hc : decodeCoin (v.getField k) with
    | error e2 =>
      rw [hc] at h
      have hred : (Except.error e2 : Except CosmosError Coin).map some =
          (Except.error e2 : Except CosmosError (Option Coin)) := rfl
      rw [hred] at h
      injection h with h2
      rw [← h2]
      exact decodeCoin_error hc
    | ok c =>
      rw [hc] at h
      have hred : (Except.ok c : Except CosmosError Coin).map some = Except.ok (some c) := rfl
      rw [hred] at h
      cases h

/-- `decodeNatField` only fails with a serde error. -/
theorem decodeNatField_error {v : Value} {k : String} {e : CosmosError}
    (h : decodeNatField v k = .error e) : e.isSerde = true := by
  unfold decodeNatField at h
  split at h
  · split at h
    · cases h
    · cases h; rfl
  · cases h; rfl

/-- `decodeIntField` only fails with a serde error. -/
theorem decodeIntField_error {v : Value} {k : String} {e : CosmosError}
    (h : decodeIntField v k = .error e) : e.isSerde = true := by
  unfold decodeIntField at h
  split at h
  · cases h
  · cases h; rfl

/-- `MsgSend.from_value` only fails with a serde error. -/
theorem msgSend_from_value_error {v : Value} {e : CosmosError}
    (h : MsgSend.from_value v = .error e) : e.isSerde = true := by
  unfold MsgSend.from_value at h
  rcases bindError h with h1 | ⟨a, _, h2⟩
  · exact decodeStringField_error h1
  rcases bindError h2 with h3 | ⟨b, _, h4⟩
  · exact decodeStringField_error h3
  rcases bindError h4 with h5 | ⟨c, _, h6⟩
  · exact decodeCoinListField_error h5
  · cases h6

/-- `MsgDelegate.from_value` only fails with a serde error. -/
theorem msgDelegate_from_value_error {v : Value} {e : CosmosError}
    (h : MsgDelegate.from_value v = .error e) : e.isSerde = true := by
  unfold MsgDelegate.from_value at h
  rcases bindError h with h1 | ⟨a, _, h2⟩
  · exact decodeStringField_error h1
  rcases bindError h2 with h3 | ⟨b, _, h4⟩
  · exact decodeStringField_error h3
  rcases bindError h4 with h5 | ⟨c, _, h6⟩
  · exact decodeOptCoinField_error h5
  · cases h6

/-- `MsgUndelegate.from_value` only fails with a serde error. -/
theorem msgUndelegate_from_value_error {v : Value} {e : CosmosError}
    (h : MsgUndelegate.from_value v = .error e) : e.isSerde = true := by
  unfold MsgUndelegate.from_value at h
  rcases bindError h with h1 | ⟨a, _, h2⟩
  · exact decodeStringField_error h1
  rcases bindError h2 with h3 | ⟨b, _, h4⟩
  · exact decodeStringField_error h3
  rcases bindError h4 with h5 | ⟨c, _, h6⟩
  · exact decodeOptCoinField_error h5
  · cases h6

/-- `MsgBeginRedelegate.from_value` only fails with a serde error. -/
theorem msgBeginRedelegate_from_value_error {v : Value} {e : CosmosError}
    (h : MsgBeginRedelegate.from_value v = .error e) : e.isSerde = true := by
  unfold MsgBeginRedelegate.from_value at h
  rcases bindError h with h1 | ⟨a, _, h2⟩
  · exact decodeStringField_error h1
  rcases bindError h2 with h3 | ⟨b, _, h4⟩
  · exact decodeStringField_error h3
  rcases bindError h4 with h5 | ⟨c, _, h6⟩
  · exact decodeStringField_error h5
  rcases bindError h6 with h7 | ⟨d, _, h8⟩
  · exact decodeOptCoinField_error h7
  · cases h8

/-- `MsgWithdrawDelegatorReward.from_value` only fails with a serde error. -/
theorem msgWithdraw_from_value_error {v : Value} {e : CosmosError}
    (h : MsgWithdrawDelegatorReward.from_value v = .error e) : e.isSerde = true := by
  unfold MsgWithdrawDelegatorReward.from_value at h
  rcases bindError h with h1 | ⟨a, _, h2⟩
  · exact decodeStringField_error h1
  rcases bindError h2 with h3 | ⟨b, _, h4⟩
  · exact decodeStringField_error h3
  · cases h4

/-- `MsgTransfer.from_value` only fails with a serde error. -/
theorem msgTransfer_from_value_error {v : Value} {e : CosmosError}
    (h : MsgTransfer.from_value v = .error e) : e.isSerde = true := by
  unfold MsgTransfer.from_value at h
  rcases bindError h with h1 | ⟨a, _, h2⟩
  · exact decodeStringField_error h1
  rcases bindError h2 with h3 | ⟨b, _, h4⟩
  · exact decodeStringField_error h3
  rcases bindError h4 with h5 | ⟨c, _, h6⟩
  · exact decodeOptCoinField_error h5
  · cases h6

/-- `MsgVote.from_value` only fails with a serde error. -/
theorem msgVote_from_value_error {v : Value} {e : CosmosError}
    (h : MsgVote.from_value v = .error e) : e.isSerde = true := by
  unfold MsgVote.from_value at h
  rcases bindError h with h1 | ⟨a, _, h2⟩
  · exact decodeStringField_error h1
  rcases bindError h2 with h3 | ⟨b, _, h4⟩
  · exact decodeNatField_error h3
  rcases bindError h4 with h5 | ⟨c, _, h6⟩
  · exact decodeIntField_error h5
  · cases h6

/-- `MsgSignData.from_value` only fails with a serde error. -/
theorem msgSignData_from_value_error {v : Value} {e : CosmosError}
    (h : MsgSignData.from_value v = .error e) : e.isSerde = true := by
  unfold MsgSignData.from_value at h
  rcases bindError h with h1 | ⟨a, _, h2⟩
  · exact decodeStringField_error h1
  rcases bindError h2 with h3 | ⟨b, _, h4⟩
  · exact decodeStringField_error h3
  · cases h4

/-- Reduction of a successful `Except` bind. -/
theorem ok_bind {α β : Type} (a : α) (f : α → Except CosmosError β) :
    (Except.ok a >>= f) = f a := rfl

/-- A kind string outside the nine dispatch arms reaches the empty
default arm. -/
theorem dispatchMsg_unrecognized {k : String} (v : Value) (h : recognizedKind k = false) :
    dispatchMsg k v = .ok none := by
  unfold dispatchMsg
  split_ifs with h1 h2 h3 h4 h5 h6 h7 h8
  · subst h1; simp [recognizedKind] at h
  · subst h2; simp [recognizedKind] at h
  · subst h3; simp [recognizedKind] at h
  · subst h4; simp [recognizedKind] at h
  · rcases h5 with h5 | h5 <;> subst h5 <;> simp [recognizedKind] at h
  · subst h6; simp [recognizedKind] at h
  · subst h7; simp [recognizedKind] at h
  · subst h8; simp [recognizedKind] at h
  · rfl

/-- Every failing dispatch fails with the serde error of the typed
decode of that arm: the builders contribute no errors. -/
theorem dispatchMsg_error_decode {k : String} {v : Value} {e : CosmosError}
    (h : dispatchMsg k v = .error e) :
    MsgSend.from_value v = .error e ∨ MsgDelegate.from_value v = .error e ∨
      MsgUndelegate.from_value v = .error e ∨ MsgBeginRedelegate.from_value v = .error e ∨
      MsgWithdrawDelegatorReward.from_value v = .error e ∨ MsgTransfer.from_value v = .error e ∨
      MsgVote.from_value v = .error e ∨ MsgSignData.from_value v = .error e := by
  unfold dispatchMsg at h
  split_ifs at h
  · rcases bindError h with h1 | ⟨m, _, h2⟩
    · exact Or.inl h1
    · exact absurd h2 (by simp [OverviewSend.try_from, ok_bind])
  · rcases bindError h with h1 | ⟨m, _, h2⟩
    · exact Or.inr (Or.inl h1)
    · exact absurd h2 (by simp [OverviewDelegate.try_from, ok_bind])
  · rcases bindError h with h1 | ⟨m, _, h2⟩
    · exact Or.inr (Or.inr (Or.inl h1))
    · exact absurd h2 (by simp [OverviewUndelegate.try_from, ok_bind])
  · rcases bindError h with h1 | ⟨m, _, h2⟩
    · exact Or.inr (Or.inr (Or.inr (Or.inl h1)))
    · exact absurd h2 (by simp [OverviewRedelegate.try_from, ok_bind])
  · rcases bindError h with h1 | ⟨m, _, h2⟩
    · exact Or.inr (Or.inr (Or.inr (Or.inr (Or.inl h1))))
    · exact absurd h2 (by simp [OverviewWithdrawReward.try_from, ok_bind])
  · rcases bindError h with h1 | ⟨m, _, h2⟩
    · exact Or.inr (Or.inr (Or.inr (Or.inr (Or.inr (Or.inl h1)))))
    · exact absurd h2 (by simp [OverviewTransfer.try_from, ok_bind])
  · rcases bindError h with h1 | ⟨m, _, h2⟩
    · exact Or.inr (Or.inr (Or.inr (Or.inr (Or.inr (Or.inr (Or.inl h1))))))
    · exact absurd h2 (by simp [OverviewVote.try_from, ok_bind])
  · rcases bindError h with h1 | ⟨m, _, h2⟩
    · exact Or.inr (Or.inr (Or.inr (Or.inr (Or.inr (Or.inr (Or.inr h1))))))
    · exact absurd h2 (by simp [OverviewMessage.try_from, ok_bind])

/-- Every failing dispatch carries a serde-decode error. -/
theorem dispatchMsg_error_isSerde {k : String} {v : Value} {e : CosmosError}
    (h : dispatchMsg k v = .error e) : e.isSerde = true := by
  rcases dispatchMsg_error_decode h with h1 | h1 | h1 | h1 | h1 | h1 | h1 | h1
  · exact msgSend_from_value_error h1
  · exact msgDelegate_from_value_error h1
  · exact msgUndelegate_from_value_error h1
  · exact msgBeginRedelegate_from_value_error h1
  · exact msgWithdraw_from_value_error h1
  · exact msgTransfer_from_value_error h1
  · exact msgVote_from_value_error h1
  · exact msgSignData_from_value_error h1

/-- Every failing loop body carries a serde-decode error. -/
theorem processMsg_error_isSerde {x : Value} {e : CosmosError}
    (h : processMsg x = .error e) : e.isSerde = true :=
  dispatchMsg_error_isSerde h

/-- Every failing run of the loop carries a serde-decode error. -/
theorem from_value_list_error_isSerde {vs : List Value} {e : CosmosError}
    (h : from_value_list vs = .error e) : e.isSerde = true := by
  induction vs with
  | nil => cases h
  | cons a t ih =>
    unfold from_value_list at h
    cases hp : processMsg a with
    | error e2 => rw [hp] at h; cases h; exact processMsg_error_isSerde hp
    | ok o =>
      rw [hp] at h
      cases hr : from_value_list t with
      | error e2 => rw [hr] at h; cases h; exact ih hr
      | ok tail => rw [hr] at h; cases h

/-- When every element's loop body succeeds with outcome `g`, the loop
returns exactly the in-order `filterMap` of `g`. -/
theorem from_value_list_filterMap (vs : List Value) (g : Value → Option MsgOverview)
    (hall : ∀ x ∈ vs, processMsg x = .ok (g x)) :
    from_value_list vs = .ok (vs.filterMap g) := by
  induction vs with
  | nil => rfl
  | cons a t ih =>
    have ha := hall a (List.mem_cons_self a t)
    have ih2 := ih fun x hx => hall x (List.mem_cons_of_mem a hx)
    cases hg : g a with
    | none =>
      rw [hg] at ha
      simp [from_value_list, ha, ih2, List.filterMap_cons, hg]
    | some m =>
      rw [hg] at ha
      simp [from_value_list, ha, ih2, List.filterMap_cons, hg]

/-- `filterMap` over a list where the function is everywhere `some`
keeps the length and the positional correspondence. -/
theorem filterMap_all_isSome {α β : Type} (g : α → Option β) (l : List α)
    (h : ∀ x ∈ l, (g x).isSome = true) :
    (l.filterMap g).length = l.length ∧
      ∀ i : Nat, (l.filterMap g)[i]? = l[i]?.bind g := by
  induction l with
  | nil => exact ⟨rfl, fun i => by cases i <;> rfl⟩
  | cons a t ih =>
    obtain ⟨b, hb⟩ := Option.isSome_iff_exists.mp (h a (List.mem_cons_self a t))
    have ih2 := ih fun x hx => h x (List.mem_cons_of_mem a hx)
    constructor
    · simp [List.filterMap_cons, hb, ih2.1]
    · intro i
      cases i with
      | zero => simp [List.filterMap_cons, hb]
      | succ n => simp [List.filterMap_cons, hb, ih2.2 n]

/-- C1: All-or-nothing aggregation — for every JSON message array, if
any element's loop body (typed decode of a recognized kind followed by
its conversion into an overview record) fails, then
`CosmosTxOverview.from_value` returns an error and no overview list at
all; a partial overview is never returned. -/
theorem from_value_all_or_nothing (vs : List Value) (x : Value) (err : CosmosError)
    (hmem : x ∈ vs) (hfail : processMsg x = .error err) :
    ∃ err2, CosmosTxOverview.from_value (Value.arr vs) = .error err2 := by
  have hlist : ∀ l : List Value, x ∈ l → ∃ err2, from_value_list l = .error err2 := by
    intro l
    induction l with
    | nil => intro hm; cases hm
    | cons a t ih =>
      intro hm
      rcases List.mem_cons.mp hm with rfl | hm2
      · exact ⟨err, by simp [from_value_list, hfail]⟩
      · cases hp : processMsg a with
        | error e2 => exact ⟨e2, by simp [from_value_list, hp]⟩
        | ok o =>
          obtain ⟨e2, he2⟩ := ih hm2
          exact ⟨e2, by simp [from_value_list, hp, he2]⟩
  obtain ⟨e2, he2⟩ := hlist vs hmem
  exact ⟨e2, by simpa [CosmosTxOverview.from_value, Value.asArray] using he2⟩

/-- Witness for C1: a two-element array whose second element is a
recognized `MsgSend` with `from_address` missing. -/
theorem from_value_all_or_nothing_witness :
    ∃ err2, CosmosTxOverview.from_value (Value.arr [demoSendVal, demoBadSendVal]) = .error err2 :=
  from_value_all_or_nothing [demoSendVal, demoBadSendVal] demoBadSendVal
    (CosmosError.SerdeError "from_address")
    (List.mem_cons_of_mem _ (List.mem_cons_self _ _)) (by rfl)

/-- C2: Order preservation — when every element's loop body succeeds
with per-element outcome `g`, the aggregate is `Ok` with exactly the
in-order `filterMap` of `g` (recognized records in input order,
unrecognized elements contributing nothing); when every element is
recognized, the output has the input's length and the i-th record is
built from the i-th input element. -/
theorem from_value_order (vs : List Value) (g : Value → Option MsgOverview)
    (hall : ∀ x ∈ vs, processMsg x = .ok (g x)) :
    CosmosTxOverview.from_value (Value.arr vs) = .ok (vs.filterMap g) ∧
      ((∀ x ∈ vs, (g x).isSome = true) →
        (vs.filterMap g).length = vs.length ∧
          ∀ i : Nat, (vs.filterMap g)[i]? = vs[i]?.bind g) := by
  refine ⟨?_, fun hsome => filterMap_all_isSome g vs hsome⟩
  have h := from_value_list_filterMap vs g hall
  simpa [CosmosTxOverview.from_value, Value.asArray] using h

/-- Witness for C2: a recognized `MsgSend`, an unrecognized element and
a recognized `MsgVote`, in that order. -/
theorem from_value_order_witness :
    CosmosTxOverview.from_value (Value.arr [demoSendVal, demoUnknownVal, demoVoteVal]) =
      .ok ([demoSendVal, demoUnknownVal, demoVoteVal].filterMap demoG) :=
  (from_value_order [demoSendVal, demoUnknownVal, demoVoteVal] demoG (by
    intro x hx
    rcases List.mem_cons.mp hx with rfl | hx
    · rfl
    rcases List.mem_cons.mp hx with rfl | hx
    · rfl
    rcases List.mem_cons.mp hx with rfl | hx
    · rfl
    cases hx)).1

/-- C3: Silent skip of unrecognized kinds — an absent or null tag
normalizes to an unrecognized kind, an element whose tag does not
normalize to one of the recognized kinds produces no record and no
error, and removing such an element anywhere in the array leaves the
whole result unchanged (iteration continues). -/
theorem unrecognized_tag_skipped (x : Value)
    (hx : recognizedKind (detect_msg_type ((x.getField "type").asStr)) = false) :
    recognizedKind (detect_msg_type none) = false ∧
    processMsg x = .ok none ∧
    ∀ pre post : List Value,
      CosmosTxOverview.from_value (Value.arr (pre ++ x :: post)) =
        CosmosTxOverview.from_value (Value.arr (pre ++ post)) := by
  have hp : processMsg x = .ok none := dispatchMsg_unrecognized _ hx
  refine ⟨rfl, hp, ?_⟩
  intro pre post
  have hmain : from_value_list (pre ++ x :: post) = from_value_list (pre ++ post) := by
    induction pre with
    | nil =>
      cases hr : from_value_list post with
      | error e => simp [from_value_list, hp, hr]
      | ok tail => simp [from_value_list, hp, hr]
    | cons a t ih =>
      cases hpa : processMsg a with
      | error e => simp [from_value_list, hpa]
      | ok o => simp [from_value_list, hpa, ih]
  simpa [CosmosTxOverview.from_value, Value.asArray] using hmain

/-- Witness for C3: the unrecognized `MsgSubmitProposal` element between
a `MsgSend` and a `MsgVote`. -/
theorem unrecognized_tag_skipped_witness :
    processMsg demoUnknownVal = .ok none ∧
    CosmosTxOverview.from_value (Value.arr [demoSendVal, demoUnknownVal, demoVoteVal]) =
      CosmosTxOverview.from_value (Value.arr [demoSendVal, demoVoteVal]) := by
  have h := unrecognized_tag_skipped demoUnknownVal (by rfl)
  exact ⟨h.2.1, h.2.2 [demoSendVal] [demoVoteVal]⟩

/-- C4: SignData text fallback — the conversion never errors, the
`Message` field is the base64-decoded payload read as UTF-8 text when
decoding succeeds, the bytes are valid UTF-8 and the text is not
detected as CJK; in every other case it is the original encoded string
verbatim. -/
theorem signdata_text_fallback (msg : MsgSignData) :
    ∃ o, OverviewMessage.try_from msg = .ok o ∧
      ((∃ bytes s, base64_decode msg.data = some bytes ∧
          string_from_utf8 bytes = some s ∧ is_cjk s = false ∧ o.message = s) ∨
        (o.message = msg.data ∧
          (base64_decode msg.data = none ∨
            (∃ bytes, base64_decode msg.data = some bytes ∧ string_from_utf8 bytes = none) ∨
            (∃ bytes s, base64_decode msg.data = some bytes ∧
              string_from_utf8 bytes = some s ∧ is_cjk s = true)))) := by
  refine ⟨_, rfl, ?_⟩
  cases hb : base64_decode msg.data with
  | none => exact Or.inr ⟨by simp [hb], Or.inl rfl⟩
  | some bytes =>
    cases hu : string_from_utf8 bytes with
    | none => exact Or.inr ⟨by simp [hb, hu], Or.inr (Or.inl ⟨bytes, rfl, hu⟩)⟩
    | some s =>
      cases hc : is_cjk s with
      | false => exact Or.inl ⟨bytes, s, rfl, hu, hc, by simp [hb, hu, hc]⟩
      | true => exact Or.inr ⟨by simp [hb, hu, hc], Or.inr (Or.inr ⟨bytes, s, rfl, hu, hc⟩)⟩

/-- C5: Vote rendering — the conversion never errors, `Voted` follows
the fixed five-entry table and is the empty string for every other
option value, and `Proposal` is the hash sign followed by the proposal
id. -/
theorem vote_option_rendering (msg : MsgVote) :
    ∃ o, OverviewVote.try_from msg = .ok o ∧
      o.proposal = "#" ++ toString msg.proposal_id ∧
      o.voted = (if msg.option = 0 then "UNSPECIFIED"
        else if msg.option = 1 then "YES"
        else if msg.option = 2 then "ABSTAIN"
        else if msg.option = 3 then "NO"
        else if msg.option = 4 then "NO_WITH_VETO"
        else "") :=
  ⟨_, rfl, rfl, rfl⟩

/-- C6: Omitted-amount fields are truly absent — for Delegate,
Undelegate and Redelegate messages without an amount, the serialized
record's key list has no `Value` entry at all. -/
theorem omitted_amount_no_value_key (d : MsgDelegate) (u : MsgUndelegate)
    (r : MsgBeginRedelegate)
    (hd : d.amount = none) (hu : u.amount = none) (hr : r.amount = none) :
    (∃ o, OverviewDelegate.try_from d = .ok o ∧
      o.serialize.map Prod.fst = ["Method", "From", "To"] ∧
      ¬ "Value" ∈ o.serialize.map Prod.fst) ∧
    (∃ o, OverviewUndelegate.try_from u = .ok o ∧
      o.serialize.map Prod.fst = ["Method", "To", "Validator"] ∧
      ¬ "Value" ∈ o.serialize.map Prod.fst) ∧
    (∃ o, OverviewRedelegate.try_from r = .ok o ∧
      o.serialize.map Prod.fst = ["Method", "To", "New Validator"] ∧
      ¬ "Value" ∈ o.serialize.map Prod.fst) := by
  refine ⟨⟨_, rfl, ?_, ?_⟩, ⟨_, rfl, ?_, ?_⟩, ⟨_, rfl, ?_, ?_⟩⟩ <;>
    simp [OverviewDelegate.try_from, OverviewDelegate.serialize,
      OverviewUndelegate.try_from, OverviewUndelegate.serialize,
      OverviewRedelegate.try_from, OverviewRedelegate.serialize, hd, hu, hr]

/-- Witness for C6 at concrete amount-less messages. -/
theorem omitted_amount_no_value_key_witness :
    ∃ o, OverviewDelegate.try_from
        { delegator_address := "cosmos1d", validator_address := "cosmosvaloper1v",
          amount := none } = .ok o ∧
      o.serialize.map Prod.fst = ["Method", "From", "To"] ∧
      ¬ "Value" ∈ o.serialize.map Prod.fst :=
  (omitted_amount_no_value_key
    { delegator_address := "cosmos1d", validator_address := "cosmosvaloper1v", amount := none }
    { delegator_address := "cosmos1d", validator_address := "cosmosvaloper1v", amount := none }
    { delegator_address := "cosmos1d", validator_src_address := "cosmosvaloper1s",
      validator_dst_address := "cosmosvaloper1t", amount := none }
    rfl rfl rfl).1

/-- C7: Totality of per-kind builders — every `try_from` conversion
returns `Ok` on every decoded message, and a failing loop body can only
carry the error of one of the typed decoders. -/
theorem builders_total :
    (∀ m : MsgSend, ∃ o, OverviewSend.try_from m = .ok o) ∧
    (∀ m : MsgDelegate, ∃ o, OverviewDelegate.try_from m = .ok o) ∧
    (∀ m : MsgUndelegate, ∃ o, OverviewUndelegate.try_from m = .ok o) ∧
    (∀ m : MsgBeginRedelegate, ∃ o, OverviewRedelegate.try_from m = .ok o) ∧
    (∀ m : MsgWithdrawDelegatorReward, ∃ o, OverviewWithdrawReward.try_from m = .ok o) ∧
    (∀ m : MsgTransfer, ∃ o, OverviewTransfer.try_from m = .ok o) ∧
    (∀ m : MsgVote, ∃ o, OverviewVote.try_from m = .ok o) ∧
    (∀ m : MsgSignData, ∃ o, OverviewMessage.try_from m = .ok o) ∧
    (∀ (x : Value) (err : CosmosError), processMsg x = .error err →
      MsgSend.from_value (x.getField "value") = .error err ∨
      MsgDelegate.from_value (x.getField "value") = .error err ∨
      MsgUndelegate.from_value (x.getField "value") = .error err ∨
      MsgBeginRedelegate.from_value (x.getField "value") = .error err ∨
      MsgWithdrawDelegatorReward.from_value (x.getField "value") = .error err ∨
      MsgTransfer.from_value (x.getField "value") = .error err ∨
      MsgVote.from_value (x.getField "value") = .error err ∨
      MsgSignData.from_value (x.getField "value") = .error err) :=
  ⟨fun _ => ⟨_, rfl⟩, fun _ => ⟨_, rfl⟩, fun _ => ⟨_, rfl⟩, fun _ => ⟨_, rfl⟩,
    fun _ => ⟨_, rfl⟩, fun _ => ⟨_, rfl⟩, fun _ => ⟨_, rfl⟩, fun _ => ⟨_, rfl⟩,
    fun _ _ h => dispatchMsg_error_decode h⟩

/-- Witness for C7: the failing `MsgSend` decode is the source of the
batch error at a concrete input. -/
theorem builders_total_witness :
    MsgSend.from_value (demoBadSendVal.getField "value") =
        .error (CosmosError.SerdeError "from_address") ∨
      MsgDelegate.from_value (demoBadSendVal.getField "value") =
        .error (CosmosError.SerdeError "from_address") ∨
      MsgUndelegate.from_value (demoBadSendVal.getField "value") =
        .error (CosmosError.SerdeError "from_address") ∨
      MsgBeginRedelegate.from_value (demoBadSendVal.getField "value") =
        .error (CosmosError.SerdeError "from_address") ∨
      MsgWithdrawDelegatorReward.from_value (demoBadSendVal.getField "value") =
        .error (CosmosError.SerdeError "from_address") ∨
      MsgTransfer.from_value (demoBadSendVal.getField "value") =
        .error (CosmosError.SerdeError "from_address") ∨
      MsgVote.from_value (demoBadSendVal.getField "value") =
        .error (CosmosError.SerdeError "from_address") ∨
      MsgSignData.from_value (demoBadSendVal.getField "value") =
        .error (CosmosError.SerdeError "from_address") :=
  builders_total.2.2.2.2.2.2.2.2 demoBadSendVal (CosmosError.SerdeError "from_address") (by rfl)

/-- C8: Malformed top-level input — a payload that is not a JSON array
is rejected with the typed `ParseTxError "empty msg"` before any
overview record is produced. -/
theorem non_array_rejected (v : Value) (h : v.asArray = none) :
    CosmosTxOverview.from_value v = .error (.ParseTxError "empty msg") := by
  unfold CosmosTxOverview.from_value
  rw [h]

/-- Witness for C8 at the `Null` payload. -/
theorem non_array_rejected_witness :
    CosmosTxOverview.from_value Value.null = .error (.ParseTxError "empty msg") :=
  non_array_rejected Value.null rfl

/-- C9: Redelegate hides the source validator — the record exposes the
delegator as `To` and the destination validator as `New Validator`, and
the whole conversion result is unchanged under any replacement of
`validator_src_address`, so the source validator appears in no field. -/
theorem redelegate_hides_source_validator (data : MsgBeginRedelegate) :
    ∃ o, OverviewRedelegate.try_from data = .ok o ∧
      o.«to» = data.delegator_address ∧
      o.new_validator = data.validator_dst_address ∧
      o.method = "Re-delegate" ∧
      ∀ src2 : String,
        OverviewRedelegate.try_from { data with validator_src_address := src2 } =
          OverviewRedelegate.try_from data :=
  ⟨_, rfl, rfl, rfl, rfl, fun _ => rfl⟩

/-- C10: Empty list is not an error — the empty array yields `Ok []`,
and the `ParseTxError "empty msg"` error is never produced for any
array payload. -/
theorem empty_msg_array_ok :
    CosmosTxOverview.from_value (Value.arr []) = .ok [] ∧
    ∀ (vs : List Value) (err : CosmosError),
      CosmosTxOverview.from_value (Value.arr vs) = .error err →
        err ≠ CosmosError.ParseTxError "empty msg" := by
  refine ⟨rfl, ?_⟩
  intro vs err h hcontra
  have hlist : from_value_list vs = .error err := by
    simpa [CosmosTxOverview.from_value, Value.asArray] using h
  have hs := from_value_list_error_isSerde hlist
  rw [hcontra] at hs
  simp [CosmosError.isSerde] at hs

/-- Witness for C10: the empty array, and a concrete decode failure
whose error is not the `empty msg` parse error. -/
theorem empty_msg_array_ok_witness :
    CosmosTxOverview.from_value (Value.arr []) = .ok [] ∧
      CosmosError.SerdeError "from_address" ≠ CosmosError.ParseTxError "empty msg" :=
  ⟨empty_msg_array_ok.1,
    empty_msg_array_ok.2 [demoBadSendVal] (CosmosError.SerdeError "from_address") (by rfl)⟩

end Cosmos
